import Mathlib

/-!
Shallow embedding of `src/bioagents/tra/kappa_client.py` (the remote
simulation session manager) and proofs about the spec claims concerning it.

Conventions of the embedding:
- Python dict/list/str/int/bool/None payloads are modelled by `Json`.
- The `requests` library is modelled by an environment `Env` mapping
  (method, url, serialized body) to the `Response` the server would return;
  every modelled operation additionally records the list of requests it
  issued (its `trace`), so that properties of the form "no request is sent"
  or "a DELETE is issued" are expressible.
- Python exceptions raised by the client are values of `PyError`.
- The best-effort pickling side effect inside `KappaRuntimeError.__init__`
  (a local file write that never alters the stored error data) is outside
  the model.
-/

/-- Model of a JSON value, standing for the Python dict/list/str/int/bool/None
payloads that `kappa_client.py` passes to `json.dumps` and reads from
`resp.json()`. -/
inductive Json where
  | null : Json
  | bool (b : Bool) : Json
  | num (n : Int) : Json
  | str (s : String) : Json
  | arr (elems : List Json) : Json
  | obj (fields : List (String × Json)) : Json

/-- Double-quote character. -/
def dqChar : Char := Char.ofNat 34

/-- Single-quote character. -/
def sqChar : Char := Char.ofNat 39

/-- Backslash character. -/
def bsChar : Char := Char.ofNat 92

/-- Newline character. -/
def nlChar : Char := Char.ofNat 10

/-- String escaping used by the model of Python `json.dumps` (escapes the
double quote and the backslash; the payloads appearing in the client contain
no other characters needing escapes). -/
def Json.escapeStr (s : String) : String :=
  String.mk (s.data.foldr
    (fun c acc => if c = dqChar || c = bsChar then bsChar :: c :: acc else c :: acc) [])

/-- Wrap a string in double quotes after escaping, as `json.dumps` renders
Python strings. -/
def Json.quoteStr (s : String) : String :=
  String.mk [dqChar] ++ Json.escapeStr s ++ String.mk [dqChar]

mutual

/-- Model of Python `json.dumps` with its default separators, as applied by
`KappaRuntime.dispatch` to request payloads. -/
def Json.dumps : Json → String
  | .null => "null"
  | .bool b => if b then "true" else "false"
  | .num n => toString n
  | .str s => Json.quoteStr s
  | .arr elems => "[" ++ Json.dumpsList elems ++ "]"
  | .obj fields => "\x7b" ++ Json.dumpsFields fields ++ "\x7d"

/-- Serialization of a JSON array body, comma separated. -/
def Json.dumpsList : List Json → String
  | [] => ""
  | [j] => Json.dumps j
  | j :: rest => Json.dumps j ++ ", " ++ Json.dumpsList rest

/-- Serialization of JSON object fields, comma separated. -/
def Json.dumpsFields : List (String × Json) → String
  | [] => ""
  | [kv] => Json.quoteStr kv.1 ++ ": " ++ Json.dumps kv.2
  | kv :: rest => Json.quoteStr kv.1 ++ ": " ++ Json.dumps kv.2 ++ ", " ++ Json.dumpsFields rest

end

mutual

/-- All string values stored under a key named `text` anywhere inside a JSON
value: the diagnostic text fields embedded in a response body, in the sense of
the spec sentence about failure classification. -/
def Json.textFields : Json → List String
  | .arr elems => Json.textFieldsList elems
  | .obj fields => Json.textFieldsObj fields
  | _ => []

/-- Text fields of the members of a JSON array. -/
def Json.textFieldsList : List Json → List String
  | [] => []
  | j :: rest => Json.textFields j ++ Json.textFieldsList rest

/-- Text fields of the fields of a JSON object. -/
def Json.textFieldsObj : List (String × Json) → List String
  | [] => []
  | kv :: rest =>
    (match kv with
     | ("text", .str s) => [s]
     | _ => []) ++ Json.textFields kv.2 ++ Json.textFieldsObj rest

end

/-- One HTTP request as issued through the Python `requests` library: the
method name, the URL, and the serialized body if any. -/
structure Request where
  method : String
  url : String
  data : Option String
deriving DecidableEq

/-- One HTTP response: status code, reason phrase, raw body text (scanned by
the regular expression in `KappaRuntimeError.__init__`), and the parsed body
(what `resp.json()` returns; envs used in theorems keep `content` equal to
`Json.dumps body`). -/
structure Response where
  status_code : Nat
  reason : String
  content : String
  body : Json

/-- The remote service as seen through `requests`: a map from
(method, url, serialized body) to the response. -/
abbrev Env := String → String → Option String → Response

/-- Python exceptions raised by the client code of `kappa_client.py`:
the `AttributeError` raised inside `dispatch` for an unknown `requests`
method, and `KappaRuntimeError` with its stored `error` (the reason phrase)
and `text` (the regex findall result) attributes. -/
inductive PyError where
  | attributeError (method : String)
  | kappaRuntimeError (error : String) (text : List String)
deriving DecidableEq


/-- Outcome of running one client operation against an environment: the
returned value or raised exception, plus the list of requests that were
actually issued to the service, in order. -/
structure Outcome (α : Type) where
  result : Except PyError α
  trace : List Request

/-- Sequencing of modelled operations: on an exception the remaining
operations do not run, and the traces concatenate. -/
def Outcome.andThen {α β : Type} (o : Outcome α) (f : α → Outcome β) : Outcome β :=
  match o.result with
  | .error e => ⟨.error e, o.trace⟩
  | .ok a => ⟨(f a).result, o.trace ++ (f a).trace⟩

/-- Drop the returned value of an operation, keeping exception and trace. -/
def Outcome.discard {α : Type} (o : Outcome α) : Outcome Unit :=
  ⟨o.result.map fun _ => (), o.trace⟩

/-- The request-issuing attributes at the top level of the Python `requests`
library (each has the call shape `f(url, data=...)`); `hasattr(requests, m)`
holds for every `m` in this list and for none of the method strings outside
it that the claims mention (in particular not for `delete_project`). -/
def requestsAttrs : List String :=
  ["request", "get", "head", "post", "put", "patch", "delete", "options"]

/-- Match of the optional-u-then-quote prefix `u?["\x27]` of the diagnostic
regex at the head of a character list, returning the remainder. The pattern
is deterministic: a consumed `u` must be followed by a quote, otherwise the
backtracked alternative (no `u`) also fails since `u` is not a quote. -/
def stripOptUQuote : List Char → Option (List Char)
  | [] => none
  | c :: rest =>
    if c = 'u' then
      match rest with
      | q :: rest2 => if q = dqChar || q = sqChar then some rest2 else none
      | [] => none
    else if c = dqChar || c = sqChar then some rest else none

/-- Lazy tail `(.*?)["\x27],` of the diagnostic regex: the shortest capture,
not containing a newline, up to a quote immediately followed by a comma.
Returns the captured characters and the remainder after the comma. -/
def findClose : List Char → Option (List Char × List Char)
  | c1 :: c2 :: rest =>
    if (c1 = dqChar || c1 = sqChar) && c2 = ',' then some ([], rest)
    else if c1 = nlChar then none
    else
      match findClose (c2 :: rest) with
      | some capRem => some (c1 :: capRem.1, capRem.2)
      | none => none
  | _ => none

/-- Match of the whole diagnostic regex
`u?["\x27]text["\x27]: ?u?["\x27](.*?)["\x27],` at the head of a character
list, returning the captured group and the remainder after the match. -/
def matchTextAt (cs : List Char) : Option (List Char × List Char) :=
  match stripOptUQuote cs with
  | none => none
  | some r1 =>
    match r1 with
    | c1 :: c2 :: c3 :: c4 :: q :: col :: r2 =>
      if c1 = 't' && c2 = 'e' && c3 = 'x' && c4 = 't' &&
         (q = dqChar || q = sqChar) && col = ':' then
        let r3 := match r2 with
          | sp :: rest => if sp = ' ' then rest else r2
          | [] => r2
        match stripOptUQuote r3 with
        | some r4 => findClose r4
        | none => none
      else none
    | _ => none

/-- Left-to-right non-overlapping scan of `re.findall`, fuelled by the length
of the text (each step consumes at least one character). -/
def findallTextsAux : Nat → List Char → List String
  | 0, _ => []
  | _, [] => []
  | fuel + 1, c :: rest =>
    match matchTextAt (c :: rest) with
    | some capRem => capRem.1.asString :: findallTextsAux fuel capRem.2
    | none => findallTextsAux fuel rest

/-- Model of `re.findall` with the diagnostic-text pattern of
`KappaRuntimeError.__init__` applied to a response body. -/
def findallTexts (s : String) : List String :=
  findallTextsAux s.data.length s.data

/-- Model of `KappaRuntimeError.__init__`: stores the reason phrase as
`error` and the findall result over the raw body as `text`. The pickling
side effect is best-effort local I O and never changes these attributes, so
it is outside the model. -/
def KappaRuntimeError (resp : Response) : PyError :=
  .kappaRuntimeError resp.reason (findallTexts resp.content)

/-- Model of `KappaRuntime.dispatch`: reject method names that are not
attributes of `requests` before any request is sent, serialize the payload
when present, issue the request, and raise `KappaRuntimeError` on any
status code other than 200. -/
def dispatch (env : Env) (method url : String) (data : Option Json) : Outcome Response :=
  if method ∈ requestsAttrs then
    let body := data.map Json.dumps
    let resp := env method url body
    if resp.status_code ≠ 200 then ⟨.error (KappaRuntimeError resp), [⟨method, url, body⟩]⟩
    else ⟨.ok resp, [⟨method, url, body⟩]⟩
  else ⟨.error (.attributeError method), []⟩

/-- Base URL of the Kappa service, `KAPPA_BASE` in the source. -/
def KAPPA_BASE : String := "https://api.executableknowledge.org/kappa/v2"

/-- Class attribute `KappaRuntime.kappa_url`. -/
def kappa_url : String := KAPPA_BASE ++ "/projects"

/-- The mutable attributes a `KappaRuntime` session object carries after
construction: `self.project_name` and `self.url`. No method of the class
ever assigns to them after `__init__`, and no further attribute (in
particular no closed flag) exists. -/
structure KappaRuntime where
  project_name : String
  url : String
deriving DecidableEq

/-- Model of `KappaRuntime.delete_project`: a no-op for the default project;
otherwise it calls `self.dispatch` with the method string `delete_project`
(not `delete`) and the project URL. The session object is returned unchanged
since the method assigns no attribute. -/
def delete_project (env : Env) (s : KappaRuntime) : Outcome Unit × KappaRuntime :=
  if s.project_name ≠ "default" then
    ((dispatch env ("delete_project") (kappa_url ++ "/" ++ s.project_name) none).discard, s)
  else (⟨.ok (), []⟩, s)

/-- Identifiers of a file-list response body, the comprehension
`[f[\x27id\x27] for f in resp.json()]` of `get_files` (list bodies whose
members lack a string `id` are outside the model and dropped). -/
def fileIds : Json → List String
  | .arr elems => elems.filterMap fun j =>
      match j with
      | .obj fields =>
        match fields.lookup ("id") with
        | some (.str s) => some s
        | _ => none
      | _ => none
  | _ => []

/-- Model of `KappaRuntime.get_files`: GET the file list of the project and
return the `id` of each entry. -/
def get_files (env : Env) (s : KappaRuntime) : Outcome (List String) :=
  (dispatch env ("get") (s.url ++ "/files") none).andThen fun resp =>
    ⟨.ok (fileIds resp.body), []⟩

/-- The auto-assigned file name `bioagent_%d.ka % i` of `add_code`. -/
def bioagentName (i : Nat) : String := "bioagent_" ++ Nat.repr i ++ ".ka"

/-- Fuelled form of the `while fmt % i in fname_list: i += 1` scan of
`add_code`, starting at index `i`. -/
def findFreeAux (l : List String) : Nat → Nat → Option Nat
  | 0, _ => none
  | fuel + 1, i => if bioagentName i ∈ l then findFreeAux l fuel (i + 1) else some i

/-- The index the scan of `add_code` stops at: fuel `l.length + 1` is proven
sufficient below (`findFreeAux_total`), so the fallback value is never
used. -/
def leastUnusedIdx (l : List String) : Nat :=
  (findFreeAux l (l.length + 1) 0).getD (l.length + 1)

/-- The `file_data` dict literal of `add_code`, field for field in source
order. -/
def fileData (code_str name : String) : Json :=
  .obj [("metadata", .obj
          [("compile", .bool true),
           ("id", .str name),
           ("position", .num 0),
           ("version", .arr [.obj
             [("client_id", .str "foobar"),
              ("local_version_file_version", .num 0)]])]),
        ("content", .str code_str)]

/-- Model of `KappaRuntime.add_code`: when no name is given, fetch the file
list and assign the lowest-numbered unused `bioagent_<n>.ka`; then POST the
`file_data` payload to the file endpoint of the project. -/
def add_code (env : Env) (s : KappaRuntime) (code_str : String) (name : Option String) : Outcome Unit :=
  match name with
  | some n => (dispatch env ("post") (s.url ++ "/files") (some (fileData code_str n))).discard
  | none =>
    (get_files env s).andThen fun fname_list =>
      (dispatch env ("post") (s.url ++ "/files")
        (some (fileData code_str (bioagentName (leastUnusedIdx fname_list))))).discard

/-- Model of `os.path.basename` on POSIX: the part of the path after the
last slash. -/
def basename (path : String) : String :=
  String.mk (path.data.foldl (fun acc c => if c = '/' then [] else acc ++ [c]) [])

/-- Model of `KappaRuntime.add_file`: read the local file (the local file
system is the map `fs`), fetch the remote file list, issue a bare
`requests.delete` (response ignored, no status check) when the raw path
occurs in the list, then upload via `add_code` under the basename of the
path. -/
def add_file (env : Env) (fs : String → String) (s : KappaRuntime) (fname : String) : Outcome Unit :=
  let content := fs fname
  (get_files env s).andThen fun file_list =>
    if fname ∈ file_list then
      Outcome.andThen ⟨.ok (), [⟨"delete", s.url ++ "/files/" ++ fname, none⟩]⟩ fun _ =>
        add_code env s content (some (basename fname))
    else add_code env s content (some (basename fname))

/-- Model of Python `dict.update` on association lists: keys already present
keep their place and take the value from `p` when `p` has one; keys only in
`p` are appended in order. -/
def dictUpdate (d p : List (String × Json)) : List (String × Json) :=
  (d.map fun kv =>
    match p.lookup kv.1 with
    | some v => (kv.1, v)
    | none => kv)
  ++ p.filter fun kv => (d.lookup kv.1).isNone

/-- The `complete_params` default dict of `start_sim`, field for field in
source order. -/
def start_sim_defaults : List (String × Json) :=
  [("plot_period", .num 10),
   ("pause_condition", .str ("[false]")),
   ("seed", .null),
   ("store_trace", .bool true)]

/-- Model of `KappaRuntime.start_sim`: the defaults updated with the keyword
arguments of the caller are POSTed to the simulation endpoint; the parsed
response body is returned. -/
def start_sim (env : Env) (s : KappaRuntime) (parameters : List (String × Json)) : Outcome Json :=
  (dispatch env ("post") (s.url ++ "/simulation") (some (.obj (dictUpdate start_sim_defaults parameters)))).andThen
    fun resp => ⟨.ok resp.body, []⟩

/-- Model of the private helper `_tell_sim` of `KappaRuntime`. -/
def tell_sim (env : Env) (s : KappaRuntime) (method cmd : String) : Outcome Response :=
  dispatch env method (s.url ++ "/simulation/" ++ cmd) none

/-- Model of `KappaRuntime.pause_sim`: an unconditional PUT to the pause
endpoint through `_tell_sim`; the client consults no simulation state. -/
def pause_sim (env : Env) (s : KappaRuntime) : Outcome Unit :=
  (tell_sim env s ("put") ("pause")).discard

/-- The probe name `(proj_name + "_%d") % i` of `check_name`. -/
def probeName (base : String) (i : Nat) : String := base ++ "_" ++ Nat.repr i

/-- Fuelled model of the confirmation loop of `check_name`. The stream
`lists` gives the project list returned by the k-th successful
`get_project_list` fetch of the call; `i` is the probe index, `confirmed`
the cumulative counter (never reset on advancing `i`, exactly as in the
source), and the trace records each iteration as (probe index, absent?).
The `sleep(1)` after a confirmation is real time and outside the model. -/
def checkNameGo (lists : Nat → List String) (base : String) :
    Nat → Nat → Nat → Nat → List (Nat × Bool) → Option (Nat × List (Nat × Bool))
  | 0, _, _, _, _ => none
  | fuel + 1, k, i, confirmed, tr =>
    if 2 ≤ confirmed then some (i, tr.reverse)
    else if probeName base i ∈ lists k then
      checkNameGo lists base fuel (k + 1) (i + 1) confirmed ((i, false) :: tr)
    else
      checkNameGo lists base fuel (k + 1) i (confirmed + 1) ((i, true) :: tr)

/-- Model of `KappaRuntime.check_name`: the fetch of the guard is `lists 0`;
when the guard holds the loop runs over the subsequent fetches. Returns the
chosen name and the iteration trace. -/
def check_name (lists : Nat → List String) (fuel : Nat) (proj_name : String) :
    Option (String × List (Nat × Bool)) :=
  if proj_name ≠ "default" ∧ proj_name ∈ lists 0 then
    (checkNameGo lists proj_name fuel 1 0 0 []).map fun r => (probeName proj_name r.1, r.2)
  else some (proj_name, [])

/-- Decimal digit characters of a natural number, most significant first:
the reference form of the digit list that `Nat.toDigitsCore` builds. -/
def digitsOf (n : Nat) : List Char :=
  if n < 10 then [Nat.digitChar n]
  else digitsOf (n / 10) ++ [Nat.digitChar (n % 10)]
decreasing_by
  exact Nat.div_lt_self (by omega) (by omega)

/-- Numeric value of a decimal digit character. -/
def digitVal (c : Char) : Nat := c.toNat - 48

/-- Value of a digit character list read back as a decimal number. -/
def valueOf (cs : List Char) : Nat := cs.foldl (fun a c => 10 * a + digitVal c) 0

/-- A plain success response with an empty body. -/
def okResponse : Response := ⟨200, "OK", "", .null⟩

/-- Body of the failing response used against claim C4: a single `text`
field that is the last (and only) field of the object, hence not followed
by a comma in the serialized body. -/
def cexBody : Json := .obj [("text", .str ("oops"))]

/-- A 500 response whose raw content is exactly the serialization of its
parsed body `cexBody`. -/
def resp500 : Response := ⟨500, "Internal Server Error", Json.dumps cexBody, cexBody⟩

/-- Fetch stream against claim C2: the guard fetch sees `demo` taken, the
first loop fetch sees `demo_0` free, the second sees `demo_0` taken (another
client registered it during the pause), the third sees `demo_1` free. -/
def cexLists : Nat → List String
  | 0 => ["demo"]
  | 2 => ["demo_0"]
  | _ => []

/-- The session object for the default project. -/
def defaultSession : KappaRuntime := ⟨"default", kappa_url ++ "/default"⟩

/-- A session object for a project named demo. -/
def demoSession : KappaRuntime := ⟨"demo", kappa_url ++ "/demo"⟩

/-- An environment whose every response is 200 with the file list
`[{id: f.ka}]` as parsed body and its serialization as raw content. -/
def filesEnv : Env := fun _ _ _ =>
  ⟨200, "OK", Json.dumps (.arr [.obj [("id", .str ("f.ka"))]]),
    .arr [.obj [("id", .str ("f.ka"))]]⟩

/-- An environment whose every response is 200 with the file list
`[{id: model.ka}]`. -/
def modelListEnv : Env := fun _ _ _ =>
  ⟨200, "OK", Json.dumps (.arr [.obj [("id", .str ("model.ka"))]]),
    .arr [.obj [("id", .str ("model.ka"))]]⟩

/-- An environment whose every response is 200 with the file list
`[{id: bioagent_0.ka}]`. -/
def bioagentEnv : Env := fun _ _ _ =>
  ⟨200, "OK", Json.dumps (.arr [.obj [("id", .str ("bioagent_0.ka"))]]),
    .arr [.obj [("id", .str ("bioagent_0.ka"))]]⟩

/-- Simulation lifecycle states as enumerated by the spec (the client code
of `kappa_client.py` stores none of them). -/
inductive SimState where
  | NotStarted : SimState
  | Running : SimState
  | Paused : SimState
  | Completed : SimState
deriving DecidableEq

/-- A mock simulation server: it carries the state its simulation is in and
the status code with which it answers a pause command. Nothing forces a
server to answer a pause of a completed simulation with a non-success
code. -/
structure MockSimServer where
  simState : SimState
  pauseCode : Nat

/-- The environment of a mock simulation server: every request of the single
pause interaction is answered with the configured status code and an empty
body. -/
def MockSimServer.env (sv : MockSimServer) : Env := fun _ _ _ =>
  ⟨sv.pauseCode, "OK", "", .null⟩

/-- A server whose simulation has completed and which accepts the pause
command with 200 anyway. -/
def completedLenientServer : MockSimServer := ⟨.Completed, 200⟩

theorem digitVal_digitChar (d : Nat) (h : d < 10) : digitVal (Nat.digitChar d) = d := by
  interval_cases d <;> rfl

theorem valueOf_append_digit (l : List Char) (c : Char) :
    valueOf (l ++ [c]) = 10 * valueOf l + digitVal c := by
  simp [valueOf, List.foldl_append]

theorem valueOf_digitsOf (n : Nat) : valueOf (digitsOf n) = n := by
  induction n using Nat.strong_induction_on with
  | _ n ih =>
    rw [digitsOf]
    by_cases h : n < 10
    · simp only [h, if_true, valueOf, List.foldl]
      rw [Nat.mul_zero, Nat.zero_add, digitVal_digitChar n h]
    · have hn : 0 < n := by omega
      have hdiv : n / 10 < n := Nat.div_lt_self hn (by omega)
      simp only [h, if_false]
      rw [valueOf_append_digit, ih (n / 10) hdiv, digitVal_digitChar (n % 10) (Nat.mod_lt n (by omega))]
      exact Nat.div_add_mod n 10

theorem toDigitsCore_eq_digitsOf :
    ∀ (fuel n : Nat) (ds : List Char), n < fuel →
      Nat.toDigitsCore 10 fuel n ds = digitsOf n ++ ds := by
  intro fuel
  induction fuel with
  | zero => intro n ds h; exact absurd h (Nat.not_lt_zero n)
  | succ fuel ih =>
    intro n ds h
    rw [Nat.toDigitsCore]
    by_cases hdiv : n / 10 = 0
    · have hlt : n < 10 := (Nat.div_eq_zero_iff (by omega)).mp hdiv
      have hmod : n % 10 = n := Nat.mod_eq_of_lt hlt
      simp only [hdiv, if_true, hmod]
      rw [digitsOf, if_pos hlt]
      rfl
    · have hge : ¬ n < 10 := by
        intro hlt
        exact hdiv ((Nat.div_eq_zero_iff (by omega)).mpr hlt)
      have hn : 0 < n := by omega
      have hfuel : n / 10 < fuel := by
        have := Nat.div_lt_self hn (show 1 < 10 by omega)
        omega
      simp only [hdiv, if_false]
      rw [ih (n / 10) _ hfuel]
      conv_rhs => rw [digitsOf, if_neg hge]
      rw [List.append_assoc, List.singleton_append]

theorem repr_eq_digitsOf (n : Nat) : Nat.repr n = (digitsOf n).asString := by
  rw [Nat.repr, Nat.toDigits, toDigitsCore_eq_digitsOf (n + 1) n [] (Nat.lt_succ_self n),
    List.append_nil]

theorem natRepr_injective : Function.Injective Nat.repr := by
  intro a b h
  rw [repr_eq_digitsOf, repr_eq_digitsOf] at h
  have hdata : digitsOf a = digitsOf b := congrArg String.data h
  calc a = valueOf (digitsOf a) := (valueOf_digitsOf a).symm
  _ = valueOf (digitsOf b) := by rw [hdata]
  _ = b := valueOf_digitsOf b

theorem string_append_left_cancel {a x y : String} (h : a ++ x = a ++ y) : x = y := by
  apply String.ext
  have hd : a.data ++ x.data = a.data ++ y.data := by
    rw [← String.data_append, ← String.data_append, h]
  exact List.append_cancel_left hd

theorem string_append_right_cancel {x y b : String} (h : x ++ b = y ++ b) : x = y := by
  apply String.ext
  have hd : x.data ++ b.data = y.data ++ b.data := by
    rw [← String.data_append, ← String.data_append, h]
  exact List.append_cancel_right hd

theorem probeName_injective (base : String) : Function.Injective (probeName base) := by
  intro i j h
  unfold probeName at h
  exact natRepr_injective (string_append_left_cancel h)

theorem bioagentName_injective : Function.Injective bioagentName := by
  intro i j h
  unfold bioagentName at h
  exact natRepr_injective (string_append_left_cancel (string_append_right_cancel h))

theorem exists_free_name (f : Nat → String) (hf : Function.Injective f) (L : List String) :
    ∃ m, m ≤ L.length ∧ f m ∉ L := by
  by_contra hcon
  push_neg at hcon
  have hsub : (Finset.range (L.length + 1)).image f ⊆ L.toFinset := by
    intro x hx
    simp only [Finset.mem_image, Finset.mem_range] at hx
    obtain ⟨m, hm, rfl⟩ := hx
    exact List.mem_toFinset.mpr (hcon m (Nat.lt_succ_iff.mp hm))
  have h1 : L.length + 1 ≤ L.toFinset.card := by
    calc L.length + 1 = ((Finset.range (L.length + 1)).image f).card := by
          rw [Finset.card_image_of_injective _ hf, Finset.card_range]
    _ ≤ L.toFinset.card := Finset.card_le_card hsub
  have h2 : L.toFinset.card ≤ L.length := List.toFinset_card_le L
  omega

theorem lookup_map_override (d p : List (String × Json)) (k : String) :
    (d.map fun kv => match p.lookup kv.1 with | some v => (kv.1, v) | none => kv).lookup k =
      match d.lookup k with
      | none => none
      | some dv => match p.lookup k with | some v => some v | none => some dv := by
  induction d with
  | nil => rfl
  | cons hd tl ih =>
    rcases hd with ⟨hk, hv⟩
    by_cases hkk : k = hk
    · subst hkk
      cases hp : p.lookup k with
      | some v => simp [List.lookup_cons, hp]
      | none => simp [List.lookup_cons, hp]
    · cases hp : p.lookup hk with
      | some v => simp [List.lookup_cons, beq_false_of_ne hkk, hp, ih]
      | none => simp [List.lookup_cons, beq_false_of_ne hkk, hp, ih]

theorem lookup_filter_new (d p : List (String × Json)) (k : String) :
    (p.filter fun kv => (d.lookup kv.1).isNone).lookup k =
      if (d.lookup k).isNone then p.lookup k else none := by
  induction p with
  | nil => simp
  | cons hd tl ih =>
    rcases hd with ⟨hk, hv⟩
    by_cases hdk : (d.lookup hk).isNone = true
    · rw [List.filter_cons_of_pos (by simpa using hdk)]
      by_cases hkk : k = hk
      · subst hkk
        simp [List.lookup_cons, hdk]
      · simp [List.lookup_cons, beq_false_of_ne hkk, ih]
    · rw [List.filter_cons_of_neg (by simpa using hdk)]
      rw [ih]
      by_cases hkk : k = hk
      · subst hkk
        simp only [Bool.not_eq_true] at hdk
        simp [hdk]
      · simp [List.lookup_cons, beq_false_of_ne hkk]

theorem lookup_dictUpdate (d p : List (String × Json)) (k : String) :
    (dictUpdate d p).lookup k = (p.lookup k).or (d.lookup k) := by
  rw [dictUpdate, List.lookup_append, lookup_map_override, lookup_filter_new]
  cases hd : d.lookup k with
  | none => cases hp : p.lookup k <;> simp [hd, hp]
  | some dv => cases hp : p.lookup k <;> simp [hd, hp]

theorem findFreeAux_spec (l : List String) :
    ∀ (fuel i m : Nat), m < fuel → bioagentName (i + m) ∉ l →
    ∃ j, findFreeAux l fuel i = some j ∧ bioagentName j ∉ l ∧ i ≤ j ∧
      ∀ t, i ≤ t → t < j → bioagentName t ∈ l := by
  intro fuel
  induction fuel with
  | zero => intro i m hm _; exact absurd hm (Nat.not_lt_zero m)
  | succ fuel ih =>
    intro i m hm hfree
    by_cases hmem : bioagentName i ∈ l
    · have hm0 : m ≠ 0 := by
        intro h0
        rw [h0, Nat.add_zero] at hfree
        exact hfree hmem
      have hfree2 : bioagentName (i + 1 + (m - 1)) ∉ l := by
        have he : i + 1 + (m - 1) = i + m := by omega
        rw [he]
        exact hfree
      obtain ⟨j, hj, hf, hij, hleast⟩ := ih (i + 1) (m - 1) (by omega) hfree2
      refine ⟨j, ?_, hf, by omega, ?_⟩
      · rw [findFreeAux, if_pos hmem]
        exact hj
      · intro t ht1 ht2
        rcases Nat.eq_or_lt_of_le ht1 with heq | hlt
        · rw [← heq]
          exact hmem
        · exact hleast t hlt ht2
    · refine ⟨i, ?_, hmem, Nat.le_refl i, ?_⟩
      · rw [findFreeAux, if_neg hmem]
      · intro t ht1 ht2
        exact absurd (Nat.lt_of_le_of_lt ht1 ht2) (Nat.lt_irrefl i)

theorem leastUnusedIdx_spec (l : List String) :
    bioagentName (leastUnusedIdx l) ∉ l ∧
      ∀ t, t < leastUnusedIdx l → bioagentName t ∈ l := by
  obtain ⟨m, hm, hfree⟩ := exists_free_name bioagentName bioagentName_injective l
  have hfree0 : bioagentName (0 + m) ∉ l := by
    rw [Nat.zero_add]
    exact hfree
  obtain ⟨j, hj, hf, _, hleast⟩ := findFreeAux_spec l (l.length + 1) 0 m (by omega) hfree0
  unfold leastUnusedIdx
  rw [hj]
  exact ⟨hf, fun t ht => hleast t (Nat.zero_le t) ht⟩

theorem checkNameGo_confirms (lists : Nat → List String) (base : String) :
    ∀ (fuel k i c : Nat) (tr : List (Nat × Bool)) (j : Nat) (out : List (Nat × Bool)),
      c < 2 → tr.countP (fun e => e.2) = c →
      checkNameGo lists base fuel k i c tr = some (j, out) →
      out.countP (fun e => e.2) = 2 ∧ out.getLast? = some (j, true) := by
  intro fuel
  induction fuel with
  | zero =>
    intro k i c tr j out _ _ h
    exact absurd h (by simp [checkNameGo])
  | succ fuel ih =>
    intro k i c tr j out hc htr hrun
    rw [checkNameGo, if_neg (by omega : ¬ 2 ≤ c)] at hrun
    by_cases hmem : probeName base i ∈ lists k
    · rw [if_pos hmem] at hrun
      exact ih (k + 1) (i + 1) c ((i, false) :: tr) j out hc (by simpa using htr) hrun
    · rw [if_neg hmem] at hrun
      by_cases hc1 : c + 1 < 2
      · exact ih (k + 1) i (c + 1) ((i, true) :: tr) j out hc1 (by simpa using htr) hrun
      · cases fuel with
        | zero => exact absurd hrun (by simp [checkNameGo])
        | succ fuel2 =>
          rw [checkNameGo, if_pos (by omega : 2 ≤ c + 1)] at hrun
          simp only [Option.some.injEq, Prod.mk.injEq] at hrun
          obtain ⟨hj, hout⟩ := hrun
          constructor
          · rw [← hout]
            simp [List.countP_cons, htr]
            omega
          · rw [← hout, List.getLast?_reverse, ← hj]
            rfl

theorem checkNameGo_total (L : List String) (lists : Nat → List String)
    (hlists : ∀ n, lists n = L) (base : String) :
    ∀ (fuel i c k : Nat) (tr : List (Nat × Bool)), c ≤ 2 →
      (∃ m, m + (3 - c) ≤ fuel ∧ probeName base (i + m) ∉ L) →
      (checkNameGo lists base fuel k i c tr).isSome := by
  intro fuel
  induction fuel with
  | zero =>
    intro i c k tr hc hex
    obtain ⟨m, hm, _⟩ := hex
    omega
  | succ fuel ih =>
    intro i c k tr hc hex
    obtain ⟨m, hm, hfree⟩ := hex
    rw [checkNameGo]
    by_cases h2 : 2 ≤ c
    · rw [if_pos h2]
      rfl
    · rw [if_neg h2, hlists k]
      by_cases hmem : probeName base i ∈ L
      · rw [if_pos hmem]
        have hm0 : m ≠ 0 := by
          intro h0
          rw [h0, Nat.add_zero] at hfree
          exact hfree hmem
        refine ih (i + 1) c (k + 1) ((i, false) :: tr) hc ⟨m - 1, by omega, ?_⟩
        have he : i + 1 + (m - 1) = i + m := by omega
        rw [he]
        exact hfree
      · rw [if_neg hmem]
        refine ih i (c + 1) (k + 1) ((i, true) :: tr) (by omega) ⟨0, by omega, ?_⟩
        rw [Nat.add_zero]
        exact hmem

theorem check_name_total (L : List String) (base : String) (fuel : Nat)
    (hfuel : L.length + 3 ≤ fuel) : (check_name (fun _ => L) fuel base).isSome := by
  rw [check_name]
  by_cases hcond : base ≠ "default" ∧ base ∈ (fun _ : Nat => L) 0
  · rw [if_pos hcond]
    obtain ⟨m, hm, hfree⟩ := exists_free_name (probeName base) (probeName_injective base) L
    have hsome : (checkNameGo (fun _ => L) base fuel 1 0 0 []).isSome := by
      refine checkNameGo_total L (fun _ => L) (fun _ => rfl) base fuel 0 0 1 [] (by omega)
        ⟨m, by omega, ?_⟩
      rw [Nat.zero_add]
      exact hfree
    obtain ⟨r, hr⟩ := Option.isSome_iff_exists.mp hsome
    rw [hr]
    rfl
  · rw [if_neg hcond]
    rfl

theorem dispatch_not_attr (env : Env) (m url : String) (data : Option Json)
    (hm : m ∉ requestsAttrs) :
    dispatch env m url data = ⟨.error (.attributeError m), []⟩ := by
  rw [dispatch, if_neg hm]

theorem dispatch_200 (env : Env) (m url : String) (data : Option Json)
    (hm : m ∈ requestsAttrs)
    (h : (env m url (data.map Json.dumps)).status_code = 200) :
    dispatch env m url data =
      ⟨.ok (env m url (data.map Json.dumps)), [⟨m, url, data.map Json.dumps⟩]⟩ := by
  simp only [dispatch, if_pos hm]
  rw [if_neg (by omega : ¬ (env m url (data.map Json.dumps)).status_code ≠ 200)]

theorem dispatch_non200 (env : Env) (m url : String) (data : Option Json)
    (hm : m ∈ requestsAttrs)
    (h : (env m url (data.map Json.dumps)).status_code ≠ 200) :
    dispatch env m url data =
      ⟨.error (KappaRuntimeError (env m url (data.map Json.dumps))),
       [⟨m, url, data.map Json.dumps⟩]⟩ := by
  simp only [dispatch, if_pos hm]
  rw [if_pos h]

theorem dispatch_trace (env : Env) (m url : String) (data : Option Json)
    (hm : m ∈ requestsAttrs) :
    (dispatch env m url data).trace = [⟨m, url, data.map Json.dumps⟩] := by
  by_cases h : (env m url (data.map Json.dumps)).status_code = 200
  · rw [dispatch_200 env m url data hm h]
  · rw [dispatch_non200 env m url data hm h]

theorem Outcome.andThen_pure_trace {α β : Type} (o : Outcome α) (f : α → Outcome β)
    (hf : ∀ a, (f a).trace = []) : (o.andThen f).trace = o.trace := by
  obtain ⟨r, t⟩ := o
  cases r with
  | error e => rfl
  | ok a => simp [Outcome.andThen, hf a]

theorem Outcome.andThen_result_ok {α β : Type} (o : Outcome α) (f : α → Outcome β) (a : α)
    (h : o.result = .ok a) : (o.andThen f).result = (f a).result := by
  obtain ⟨r, t⟩ := o
  cases r with
  | error e => exact absurd h (by simp)
  | ok b =>
    simp only [Except.ok.injEq] at h
    rw [h]
    rfl

theorem Outcome.andThen_result_error {α β : Type} (o : Outcome α) (f : α → Outcome β)
    (e : PyError) (h : o.result = .error e) : (o.andThen f).result = .error e := by
  obtain ⟨r, t⟩ := o
  cases r with
  | error e2 =>
    simp only [Except.error.injEq] at h
    rw [← h]
    rfl
  | ok b => exact absurd h (by simp)

/-- C1 (code_bug): the claim and the spec say `delete_project` issues an
HTTP DELETE to the project URL for every non-default project and no request
for the default project. The code instead passes the method string
`delete_project` to `dispatch`; the `requests` library has no attribute of
that name, so for every non-default session an `AttributeError` is raised
and no request at all — in particular no DELETE — is ever issued; for the
default project nothing is sent, as claimed. -/
theorem delete_project_attribute_error (env : Env) (s : KappaRuntime) :
    delete_project env s =
      if s.project_name ≠ "default"
      then (⟨.error (.attributeError ("delete_project")), []⟩, s)
      else (⟨.ok (), []⟩, s) := by
  rw [delete_project]
  by_cases h : s.project_name ≠ "default"
  · rw [if_pos h, if_pos h,
      dispatch_not_attr env ("delete_project") (kappa_url ++ "/" ++ s.project_name) none
        (by decide)]
    rfl
  · rw [if_neg h, if_neg h]

/-- C9 counterexample: the method string head is outside the set
{get, post, put, delete}, yet `dispatch` accepts it (head is an attribute of
`requests`), issues the request and returns the response as data, raising no
configuration error at all. -/
theorem dispatch_accepts_head_cex :
    ("head" ∉ (["get", "post", "put", "delete"] : List String)) ∧
    (dispatch (fun _ _ _ => okResponse) ("head") ("url") none).result = .ok okResponse ∧
    (dispatch (fun _ _ _ => okResponse) ("head") ("url") none).trace =
      [⟨"head", "url", none⟩] := by
  refine ⟨by decide, rfl, rfl⟩

/-- C9 amended: `dispatch` accepts every method string that is an attribute
of the `requests` library — a strictly larger set than
{get, post, put, delete}, also containing request, head, patch and options —
and issues the request for each of them; only a method that is not an
attribute of `requests` fails with an `AttributeError` before any request is
sent. -/
theorem dispatch_requests_attr_guard (env : Env) (m url : String) (data : Option Json) :
    (m ∉ requestsAttrs → dispatch env m url data = ⟨.error (.attributeError m), []⟩) ∧
    (m ∈ requestsAttrs → (dispatch env m url data).trace = [⟨m, url, data.map Json.dumps⟩]) :=
  ⟨fun h => dispatch_not_attr env m url data h,
   fun h => dispatch_trace env m url data h⟩

/-- Witness for the amended C9 theorem at the concrete methods frobnicate
(not an attribute of `requests`) and patch (an attribute outside the
claimed four). -/
theorem dispatch_requests_attr_guard_witness :
    (dispatch (fun _ _ _ => okResponse) ("frobnicate") ("url") none =
      ⟨.error (.attributeError ("frobnicate")), []⟩) ∧
    (dispatch (fun _ _ _ => okResponse) ("patch") ("url") none).trace =
      [⟨"patch", "url", none⟩] :=
  ⟨(dispatch_requests_attr_guard (fun _ _ _ => okResponse) ("frobnicate") ("url") none).1
      (by decide),
   (dispatch_requests_attr_guard (fun _ _ _ => okResponse) ("patch") ("url") none).2
      (by decide)⟩

/-- C4 counterexample: a 500 response whose body is the object with the
single field `text: oops`. The embedded text fields of the body are
`[oops]`, but the stored diagnostic texts of the raised failure are `[]`:
the findall pattern demands a comma after the closing quote, which the last
field of an object does not have. The stored texts therefore do not exactly
match the text fields embedded in the body. -/
theorem dispatch_text_extraction_cex :
    resp500.content = Json.dumps resp500.body ∧
    Json.textFields resp500.body = ["oops"] ∧
    (dispatch (fun _ _ _ => resp500) ("get") ("url") none).result =
      .error (.kappaRuntimeError ("Internal Server Error") []) ∧
    ([] : List String) ≠ ["oops"] := by
  refine ⟨rfl, rfl, rfl, by decide⟩

/-- C4 amended: for every response with a status code other than 200,
`dispatch` raises `KappaRuntimeError` carrying the reason phrase and the
findall result of the diagnostic regex over the raw body — the text-key
values that are followed by a comma — and never returns the response as
data; the extracted texts need not coincide with all text fields embedded in
the body. -/
theorem dispatch_error_classification (env : Env) (m url : String) (data : Option Json)
    (hm : m ∈ requestsAttrs)
    (h : (env m url (data.map Json.dumps)).status_code ≠ 200) :
    (dispatch env m url data).result =
      .error (.kappaRuntimeError (env m url (data.map Json.dumps)).reason
        (findallTexts (env m url (data.map Json.dumps)).content)) ∧
    ∀ r : Response, (dispatch env m url data).result ≠ .ok r := by
  rw [dispatch_non200 env m url data hm h]
  exact ⟨rfl, fun r hr => Except.noConfusion hr⟩

/-- Witness for the amended C4 theorem at the concrete 500 response. -/
theorem dispatch_error_classification_witness :
    (dispatch (fun _ _ _ => resp500) ("put") ("url") none).result =
      .error (.kappaRuntimeError ("Internal Server Error") []) ∧
    ∀ r : Response, (dispatch (fun _ _ _ => resp500) ("put") ("url") none).result ≠ .ok r := by
  have h := dispatch_error_classification (fun _ _ _ => resp500) ("put") ("url") none
    (by decide) (by decide)
  refine ⟨?_, h.2⟩
  rw [h.1]
  rfl

/-- C3 counterexample: on the default-project session, `delete_project`
succeeds without sending anything and without changing the session object,
and a subsequent `get_files` on the very same session object executes
normally and returns the file list — it does not fail with a closed-session
error (no such error exists anywhere in the client). -/
theorem closed_session_cex :
    (delete_project filesEnv defaultSession).1.result = .ok () ∧
    (delete_project filesEnv defaultSession).1.trace = [] ∧
    (delete_project filesEnv defaultSession).2 = defaultSession ∧
    (get_files filesEnv (delete_project filesEnv defaultSession).2).result = .ok ["f.ka"] := by
  refine ⟨rfl, rfl, rfl, rfl⟩

/-- C3 amended: the session object records no closed state — `delete_project`
returns it unchanged (the method assigns no attribute) — and a subsequent
operation such as `get_files` is dispatched to the server exactly as before:
it returns the file list when the server answers 200 and raises the
transport-level `KappaRuntimeError` when it does not; no dedicated
closed-session failure exists. -/
theorem delete_project_no_closed_state (env : Env) (s : KappaRuntime) :
    (delete_project env s).2 = s ∧
    ((env ("get") (s.url ++ "/files") none).status_code = 200 →
      (get_files env (delete_project env s).2).result =
        .ok (fileIds (env ("get") (s.url ++ "/files") none).body)) ∧
    ((env ("get") (s.url ++ "/files") none).status_code ≠ 200 →
      (get_files env (delete_project env s).2).result =
        .error (KappaRuntimeError (env ("get") (s.url ++ "/files") none))) := by
  have hs : (delete_project env s).2 = s := by
    rw [delete_project]
    by_cases h : s.project_name ≠ "default"
    · rw [if_pos h]
    · rw [if_neg h]
  refine ⟨hs, ?_, ?_⟩
  · intro h200
    rw [hs, get_files]
    rw [Outcome.andThen_result_ok _ _ (env ("get") (s.url ++ "/files") none)]
    rw [dispatch_200 env ("get") (s.url ++ "/files") none (by decide) h200]
    rfl
  · intro hne
    rw [hs, get_files]
    refine Outcome.andThen_result_error _ _ _ ?_
    rw [dispatch_non200 env ("get") (s.url ++ "/files") none (by decide) hne]
    rfl

/-- Witness for the amended C3 theorem: on a concrete session and a
200-answering environment, `get_files` after `delete_project` returns the
file list. -/
theorem delete_project_no_closed_state_witness :
    (delete_project filesEnv demoSession).2 = demoSession ∧
    (get_files filesEnv (delete_project filesEnv demoSession).2).result =
      .ok (fileIds (filesEnv ("get") (demoSession.url ++ "/files") none).body) := by
  have h := delete_project_no_closed_state filesEnv demoSession
  exact ⟨h.1, h.2.1 rfl⟩

/-- C5 counterexample: a server whose simulation is Completed and which
answers the pause command with 200. The client tracks no simulation state
and sends the PUT unconditionally, so `pause_sim` returns silently — no
invalid-transition failure (no such classification exists in the client)
and no failure at all is surfaced. -/
theorem pause_sim_completed_cex :
    completedLenientServer.simState = SimState.Completed ∧
    (pause_sim completedLenientServer.env demoSession).result = .ok () ∧
    (pause_sim completedLenientServer.env demoSession).trace =
      [⟨"put", demoSession.url ++ "/simulation/" ++ "pause", none⟩] := by
  refine ⟨rfl, rfl, rfl⟩

/-- C5 amended: `pause_sim` consults no simulation state: whatever state the
simulation is in, it issues exactly one PUT to the pause endpoint, returns
silently when the server answers 200, and raises the transport-level
`KappaRuntimeError` (not an invalid-transition classification) when the
server answers any other code — the non-success case is never swallowed,
but nothing in the client itself rejects a pause of a completed or
not-started simulation. -/
theorem pause_sim_transport_only (env : Env) (s : KappaRuntime) :
    (pause_sim env s).trace = [⟨"put", s.url ++ "/simulation/" ++ "pause", none⟩] ∧
    ((env ("put") (s.url ++ "/simulation/" ++ "pause") none).status_code = 200 →
      (pause_sim env s).result = .ok ()) ∧
    ((env ("put") (s.url ++ "/simulation/" ++ "pause") none).status_code ≠ 200 →
      (pause_sim env s).result =
        .error (KappaRuntimeError (env ("put") (s.url ++ "/simulation/" ++ "pause") none))) := by
  refine ⟨?_, ?_, ?_⟩
  · rw [pause_sim, tell_sim]
    exact dispatch_trace env ("put") (s.url ++ "/simulation/" ++ "pause") none (by decide)
  · intro h200
    rw [pause_sim, tell_sim,
      dispatch_200 env ("put") (s.url ++ "/simulation/" ++ "pause") none (by decide) h200]
    rfl
  · intro hne
    rw [pause_sim, tell_sim,
      dispatch_non200 env ("put") (s.url ++ "/simulation/" ++ "pause") none (by decide) hne]
    rfl

/-- Witness for the amended C5 theorem: the 200 branch at the lenient
Completed server and the non-200 branch at a 409-answering server. -/
theorem pause_sim_transport_only_witness :
    (pause_sim completedLenientServer.env demoSession).result = .ok () ∧
    (pause_sim (MockSimServer.env ⟨.Completed, 409⟩) demoSession).result =
      .error (KappaRuntimeError (MockSimServer.env ⟨.Completed, 409⟩ ("put")
        (demoSession.url ++ "/simulation/" ++ "pause") none)) :=
  ⟨(pause_sim_transport_only completedLenientServer.env demoSession).2.1 rfl,
   (pause_sim_transport_only (MockSimServer.env ⟨.Completed, 409⟩) demoSession).2.2 (by decide)⟩

theorem Outcome.ok_andThen {α β : Type} (a : α) (tr : List Request) (f : α → Outcome β) :
    (Outcome.mk (.ok a) tr).andThen f = ⟨(f a).result, tr ++ (f a).trace⟩ := rfl

theorem Outcome.error_andThen {α β : Type} (e : PyError) (tr : List Request) (f : α → Outcome β) :
    (Outcome.mk (.error e) tr).andThen f = ⟨.error e, tr⟩ := rfl

theorem Outcome.discard_trace {α : Type} (o : Outcome α) : o.discard.trace = o.trace := rfl

theorem get_files_200 (env : Env) (s : KappaRuntime)
    (h200 : (env ("get") (s.url ++ "/files") none).status_code = 200) :
    get_files env s =
      ⟨.ok (fileIds (env ("get") (s.url ++ "/files") none).body),
       [⟨"get", s.url ++ "/files", none⟩]⟩ := by
  rw [get_files, dispatch_200 env ("get") (s.url ++ "/files") none (by decide) h200,
    Outcome.ok_andThen]
  rfl

/-- C6 counterexample: for the path dir/model.ka, the derived upload name is
model.ka and a remote file of exactly that name exists; the claim requires a
preceding delete of it, but the code compares the raw path dir/model.ka
against the remote list, finds nothing, and uploads without issuing any
delete request. -/
theorem add_file_no_overwrite_delete_cex :
    basename ("dir/model.ka") = "model.ka" ∧
    "model.ka" ∈ fileIds (modelListEnv ("get") (demoSession.url ++ "/files") none).body ∧
    (add_file modelListEnv (fun _ => "CODE") demoSession ("dir/model.ka")).trace =
      [⟨"get", demoSession.url ++ "/files", none⟩,
       ⟨"post", demoSession.url ++ "/files",
        some (Json.dumps (fileData ("CODE") ("model.ka")))⟩] ∧
    (∀ r ∈ (add_file modelListEnv (fun _ => "CODE") demoSession ("dir/model.ka")).trace,
      r.method ≠ "delete") := by
  refine ⟨rfl, by decide, rfl, by decide⟩

/-- C6 amended: `add_file` reads the local content and checks the raw local
path — not the derived name — against the remote file list: a bare delete of
`files/<path>` is issued exactly when the raw path itself occurs in the
list, and the content is then uploaded under the basename of the path with
the `fileData` metadata (compile true, position 0). When the path has a
directory part, a remote file named like its basename is not deleted
first. -/
theorem add_file_path_check (env : Env) (fs : String → String) (s : KappaRuntime)
    (fname : String)
    (h200 : (env ("get") (s.url ++ "/files") none).status_code = 200) :
    (fname ∈ fileIds (env ("get") (s.url ++ "/files") none).body →
      (add_file env fs s fname).trace =
        [⟨"get", s.url ++ "/files", none⟩,
         ⟨"delete", s.url ++ "/files/" ++ fname, none⟩,
         ⟨"post", s.url ++ "/files",
          some (Json.dumps (fileData (fs fname) (basename fname)))⟩]) ∧
    (fname ∉ fileIds (env ("get") (s.url ++ "/files") none).body →
      (add_file env fs s fname).trace =
        [⟨"get", s.url ++ "/files", none⟩,
         ⟨"post", s.url ++ "/files",
          some (Json.dumps (fileData (fs fname) (basename fname)))⟩]) := by
  have hgf := get_files_200 env s h200
  constructor
  · intro hmem
    rw [add_file, hgf, Outcome.ok_andThen]
    simp only [if_pos hmem, Outcome.ok_andThen, add_code, Outcome.discard_trace]
    rw [dispatch_trace env ("post") (s.url ++ "/files")
        (some (fileData (fs fname) (basename fname))) (by decide)]
    rfl
  · intro hmem
    rw [add_file, hgf, Outcome.ok_andThen]
    simp only [if_neg hmem, add_code, Outcome.discard_trace]
    rw [dispatch_trace env ("post") (s.url ++ "/files")
        (some (fileData (fs fname) (basename fname))) (by decide)]
    rfl

/-- Witness for the amended C6 theorem: with no directory part the raw path
equals the derived name, the remote file is deleted and the upload follows;
with a directory part no delete is issued. -/
theorem add_file_path_check_witness :
    (add_file modelListEnv (fun _ => "CODE") demoSession ("model.ka")).trace =
      [⟨"get", demoSession.url ++ "/files", none⟩,
       ⟨"delete", demoSession.url ++ "/files/" ++ "model.ka", none⟩,
       ⟨"post", demoSession.url ++ "/files",
        some (Json.dumps (fileData ("CODE") ("model.ka")))⟩] ∧
    (add_file modelListEnv (fun _ => "CODE") demoSession ("d/model.ka")).trace =
      [⟨"get", demoSession.url ++ "/files", none⟩,
       ⟨"post", demoSession.url ++ "/files",
        some (Json.dumps (fileData ("CODE") ("model.ka")))⟩] := by
  constructor
  · have h := (add_file_path_check modelListEnv (fun _ => "CODE") demoSession ("model.ka")
      rfl).1 (by decide)
    rw [h]
    rfl
  · have h := (add_file_path_check modelListEnv (fun _ => "CODE") demoSession ("d/model.ka")
      rfl).2 (by decide)
    rw [h]
    rfl

/-- C7: when `add_code` is called without a name it fetches the remote file
list once and uploads under `bioagent_<n>.ka` where `n` is `leastUnusedIdx`
of that list — a pure function of the fetched list — and `leastUnusedIdx` is
the least natural number whose `bioagent_<n>.ka` does not occur in the
list. -/
theorem add_code_auto_name (env : Env) (s : KappaRuntime) (code_str : String)
    (h200 : (env ("get") (s.url ++ "/files") none).status_code = 200) :
    (add_code env s code_str none).trace =
      [⟨"get", s.url ++ "/files", none⟩,
       ⟨"post", s.url ++ "/files",
        some (Json.dumps (fileData code_str
          (bioagentName (leastUnusedIdx
            (fileIds (env ("get") (s.url ++ "/files") none).body)))))⟩] ∧
    bioagentName (leastUnusedIdx (fileIds (env ("get") (s.url ++ "/files") none).body)) ∉
      fileIds (env ("get") (s.url ++ "/files") none).body ∧
    ∀ j, j < leastUnusedIdx (fileIds (env ("get") (s.url ++ "/files") none).body) →
      bioagentName j ∈ fileIds (env ("get") (s.url ++ "/files") none).body := by
  have hgf := get_files_200 env s h200
  have hspec := leastUnusedIdx_spec (fileIds (env ("get") (s.url ++ "/files") none).body)
  refine ⟨?_, hspec.1, hspec.2⟩
  rw [add_code, hgf, Outcome.ok_andThen]
  simp only [Outcome.discard_trace]
  rw [dispatch_trace env ("post") (s.url ++ "/files")
      (some (fileData code_str (bioagentName (leastUnusedIdx
        (fileIds (env ("get") (s.url ++ "/files") none).body))))) (by decide)]
  rfl

/-- Witness for the C7 theorem: against a file list already holding
`bioagent_0.ka`, the assigned name is `bioagent_1.ka`. -/
theorem add_code_auto_name_witness :
    (add_code bioagentEnv demoSession ("CODE") none).trace =
      [⟨"get", demoSession.url ++ "/files", none⟩,
       ⟨"post", demoSession.url ++ "/files",
        some (Json.dumps (fileData ("CODE") ("bioagent_1.ka")))⟩] ∧
    ("bioagent_1.ka" : String) ∉
      fileIds (bioagentEnv ("get") (demoSession.url ++ "/files") none).body := by
  have h := add_code_auto_name bioagentEnv demoSession ("CODE") rfl
  constructor
  · rw [h.1]
    rfl
  · have h2 := h.2.1
    revert h2
    decide

/-- C8: `start_sim` posts to the simulation endpoint exactly one request
whose body is `start_sim_defaults` updated with the caller-supplied
parameters, and in the updated dict every key supplied by the caller takes
the caller value while every other key keeps its default. -/
theorem start_sim_defaults_merge (env : Env) (s : KappaRuntime)
    (parameters : List (String × Json)) :
    (start_sim env s parameters).trace =
      [⟨"post", s.url ++ "/simulation",
        some (Json.dumps (.obj (dictUpdate start_sim_defaults parameters)))⟩] ∧
    ∀ k : String, (dictUpdate start_sim_defaults parameters).lookup k =
      (parameters.lookup k).or (start_sim_defaults.lookup k) := by
  constructor
  · rw [start_sim, Outcome.andThen_pure_trace _ _ (fun _ => rfl),
      dispatch_trace env ("post") (s.url ++ "/simulation")
        (some (.obj (dictUpdate start_sim_defaults parameters))) (by decide)]
    rfl
  · intro k
    exact lookup_dictUpdate start_sim_defaults parameters k

/-- C2 counterexample: against the fetch stream `cexLists` the call returns
`demo_1`, but the trace shows that the probe `demo_0` passed one absence
check and then failed one, after which `demo_1` was accepted after a single
absence check — the confirmation counter is cumulative across probes, so
the returned probe did not pass two absence checks of its own. -/
theorem check_name_single_check_cex :
    check_name cexLists 10 ("demo") =
      some ("demo_1", [(0, true), (0, false), (1, true)]) ∧
    (([(0, true), (0, false), (1, true)] : List (Nat × Bool)).filter
        (fun e => e.1 == 1 && e.2)).length = 1 := by
  refine ⟨by decide, by decide⟩

/-- C2 amended: when the guard is triggered, the loop keeps one cumulative
confirmation counter that is never reset when the probe index advances; the
returned name is the probe current when the counter reaches two, the total
number of passed absence checks across all probes is exactly two, and the
final iteration is an absence check of the returned probe (so it passed at
least one, but not necessarily two, absence checks). -/
theorem check_name_cumulative_confirmations (lists : Nat → List String) (fuel : Nat)
    (base name : String) (tr : List (Nat × Bool))
    (hbase : base ≠ "default") (hmem : base ∈ lists 0)
    (hrun : check_name lists fuel base = some (name, tr)) :
    ∃ i, name = probeName base i ∧
      tr.countP (fun e => e.2) = 2 ∧
      tr.getLast? = some (i, true) := by
  rw [check_name, if_pos ⟨hbase, hmem⟩] at hrun
  obtain ⟨r, hr, hf⟩ := Option.map_eq_some'.mp hrun
  obtain ⟨j, out⟩ := r
  have h := checkNameGo_confirms lists base fuel 1 0 0 [] j out (by omega) rfl hr
  simp only [Prod.mk.injEq] at hf
  obtain ⟨h1, h2⟩ := hf
  refine ⟨j, h1.symm, ?_, ?_⟩
  · rw [← h2]
    exact h.1
  · rw [← h2]
    exact h.2

/-- Witness for the amended C2 theorem at the concrete fetch stream. -/
theorem check_name_cumulative_confirmations_witness :
    ∃ i, "demo_1" = probeName ("demo") i ∧
      (([(0, true), (0, false), (1, true)] : List (Nat × Bool)).countP fun e => e.2) = 2 ∧
      ([(0, true), (0, false), (1, true)] : List (Nat × Bool)).getLast? = some (i, true) :=
  check_name_cumulative_confirmations cexLists 10 ("demo") ("demo_1")
    [(0, true), (0, false), (1, true)] (by decide) (by decide) (by decide)

/-- C10: against a fixed project list L every call of `check_name`
terminates, with `L.length + 3` loop iterations always sufficient: each
iteration either raises the cumulative confirmation count towards two or
moves the probe index past a name occupied in L, and since the probe names
are pairwise distinct at most `L.length` of them can be occupied. -/
theorem check_name_terminates (L : List String) (base : String) :
    (check_name (fun _ => L) (L.length + 3) base).isSome :=
  check_name_total L base (L.length + 3) (Nat.le_refl _)
